import Mathlib

/-!
Shallow embedding of the ECS runtime core of `rust_engine_test`:
entity registry (`src/ecs/entity.rs`), component store
(`src/ecs/component.rs`), system scheduler (`src/ecs/system.rs`),
scene culling (`src/scene/mod.rs`) and the worker pool
(`src/thread_pool/mod.rs`), with theorems settling the specification
claims about them.

Conventions: entity ids (Rust `u32`) are `Nat` with the explicit
`u32MAX` bound where the source checks `u32::MAX`; `TypeId`s (component
type keys and system type ids) are `Nat`; `HashMap`s are association
lists whose operations mirror `get` / `insert` / `remove` /
`contains_key`; fallible Rust functions return `Except ErrorKind`.
-/

namespace RustEngine

/-- `ErrorKind` from `src/ecs/err.rs`. -/
inductive ErrorKind where
  | EntityMaxReached
  | EntityDoesNotExist
  | EntityDoesNotOwnComponent
  | ComponentNotRegistered
  | ComponentArrayDowncastFailure
  | SceneMaxReached
  | SceneDoesNotExist
  | NoCurrentScene
deriving Repr, DecidableEq

/-- `u32::MAX`. -/
def u32MAX : Nat := 2 ^ 32 - 1

/-! ## Entity registry (`src/ecs/entity.rs`)

`EntityManager { next_entity_id: RefCell<u32>, dead_entities: RefCell<VecDeque<u32>> }`.
The `VecDeque` is a list whose head is the deque front. -/

structure EntityManager where
  next_entity_id : Nat
  dead_entities : List Nat
deriving Repr, DecidableEq

/-- `EntityManager::new`. -/
def EntityManager.new : EntityManager :=
  { next_entity_id := 0, dead_entities := [] }

/-- `EntityManager::does_entity_exist`:
`*next_entity_id > entity.0 && !dead_entities.contains(&entity.0)`. -/
def EntityManager.does_entity_exist (m : EntityManager) (e : Nat) : Bool :=
  decide (e < m.next_entity_id) && !(m.dead_entities.contains e)

/-- `EntityManager::create_entity`: pops the front of `dead_entities` if
nonempty; otherwise errors when the counter sits at `u32::MAX`, else
issues the counter value and increments it. -/
def EntityManager.create_entity (m : EntityManager) :
    Except ErrorKind Nat × EntityManager :=
  match m.dead_entities with
  | e :: rest => (Except.ok e, { m with dead_entities := rest })
  | [] =>
    if m.next_entity_id = u32MAX then
      (Except.error ErrorKind.EntityMaxReached, m)
    else
      (Except.ok m.next_entity_id,
       { m with next_entity_id := m.next_entity_id + 1 })

/-- `EntityManager::destroy_entity`: pushes the id onto the back of
`dead_entities` when the entity currently exists, else does nothing. -/
def EntityManager.destroy_entity (m : EntityManager) (e : Nat) : EntityManager :=
  if m.does_entity_exist e then
    { m with dead_entities := m.dead_entities ++ [e] }
  else m

/-- `EntityManager::get_living_entities`:
`(0..next_entity_id).filter(|e| !dead_entities.contains(e))`. -/
def EntityManager.get_living_entities (m : EntityManager) : List Nat :=
  (List.range m.next_entity_id).filter (fun e => !(m.dead_entities.contains e))

/-! ## Component store (`src/ecs/component.rs`)

`ComponentManager { components: Mutex<HashMap<TypeId, Mutex<Box<dyn ComponentArray>>>> }`.
Each backing array is a `HashMap<Entity, C>`. The store is modelled with
one value type `α` for component data; each array for `TypeId::of::<C>`
is created as `HashMap<Entity, C>`, so the `downcast` in the source
always succeeds when the key matches and the
`ComponentArrayDowncastFailure` branches are unreachable. Hash maps are
association lists: `get`/`contains_key` search by key, `insert` is
insert-or-replace. -/

/-- `HashMap::insert` on an association list: insert or replace. -/
def mapInsert {β : Type} (l : List (Nat × β)) (k : Nat) (v : β) :
    List (Nat × β) :=
  (k, v) :: l.filter (fun p => p.1 ≠ k)

/-- In-place update of the value stored at key `k` (the source mutates
the array behind its `Mutex` without touching the outer map entry). -/
def mapUpdate {β : Type} (l : List (Nat × β)) (k : Nat) (v : β) :
    List (Nat × β) :=
  l.map (fun p => if p.1 = k then (k, v) else p)

/-- `HashMap::contains_key` on an association list. -/
def mapContains {β : Type} (l : List (Nat × β)) (k : Nat) : Bool :=
  l.any (fun p => p.1 = k)

structure ComponentManager (α : Type) where
  components : List (Nat × List (Nat × α))
deriving Repr, DecidableEq

/-- `ComponentManager::new`. -/
def ComponentManager.new {α : Type} : ComponentManager α := ⟨[]⟩

/-- `ComponentManager::is_component_registered`. -/
def ComponentManager.is_component_registered {α : Type}
    (cm : ComponentManager α) (k : Nat) : Bool :=
  mapContains cm.components k

/-- `ComponentManager::register_component::<C>`: returns `TypeId::of::<C>`
(the argument `k` here), inserting a fresh empty array on first call. -/
def ComponentManager.register_component {α : Type}
    (cm : ComponentManager α) (k : Nat) : Nat × ComponentManager α :=
  if cm.is_component_registered k then (k, cm)
  else (k, ⟨mapInsert cm.components k []⟩)

/-- `ComponentManager::add_component`: insert-or-replace into the array
for the component's type key; `ComponentNotRegistered` when the key has
no array. -/
def ComponentManager.add_component {α : Type} (cm : ComponentManager α)
    (k e : Nat) (v : α) : Except ErrorKind Unit × ComponentManager α :=
  match cm.components.lookup k with
  | some arr =>
    (Except.ok (), ⟨mapUpdate cm.components k (mapInsert arr e v)⟩)
  | none => (Except.error ErrorKind.ComponentNotRegistered, cm)

/-- `ComponentManager::remove_component::<C>`: remove the entity's entry
from the type's array if present; `ComponentNotRegistered` when the key
has no array. -/
def ComponentManager.remove_component {α : Type} (cm : ComponentManager α)
    (k e : Nat) : Except ErrorKind Unit × ComponentManager α :=
  match cm.components.lookup k with
  | some arr =>
    (Except.ok (),
     ⟨mapUpdate cm.components k (arr.filter (fun p => p.1 ≠ e))⟩)
  | none => (Except.error ErrorKind.ComponentNotRegistered, cm)

/-- `ComponentManager::remove_components`: clears the entity from every
registered array (`ComponentArray::remove_component` never fails, so the
`?` in the source never propagates an error). -/
def ComponentManager.remove_components {α : Type} (cm : ComponentManager α)
    (e : Nat) : ComponentManager α :=
  ⟨cm.components.map (fun p => (p.1, p.2.filter (fun q => q.1 ≠ e)))⟩

/-- `ComponentManager::has_components`: walks the key list; returns
`Ok(false)` as soon as a registered key's array lacks the entity,
`Err(ComponentNotRegistered)` when it reaches an unregistered key, and
`Ok(true)` when every key's array holds the entity. -/
def ComponentManager.has_components {α : Type} (cm : ComponentManager α)
    (e : Nat) : List Nat → Except ErrorKind Bool
  | [] => Except.ok true
  | k :: rest =>
    match cm.components.lookup k with
    | some arr =>
      if mapContains arr e then cm.has_components e rest
      else Except.ok false
    | none => Except.error ErrorKind.ComponentNotRegistered

/-- `ComponentManager::get_component::<C>`: `ComponentNotRegistered` when
the type key has no array; otherwise `EntityDoesNotOwnComponent` when the
array lacks the entity (`has_entity_data` is `contains_key`, so the
subsequent `get_mut(..).expect(..)` in the source cannot fail);
otherwise the stored value (the `UnsafeComponentCell` view). -/
def ComponentManager.get_component {α : Type} (cm : ComponentManager α)
    (k e : Nat) : Except ErrorKind α :=
  match cm.components.lookup k with
  | some arr =>
    match arr.lookup e with
    | some v => Except.ok v
    | none => Except.error ErrorKind.EntityDoesNotOwnComponent
  | none => Except.error ErrorKind.ComponentNotRegistered

/-! ## Scene state and the end-of-tick cull (`src/scene/mod.rs`)

`SceneState` holds the entity manager, the component manager and the
`entities_to_kill` set. The `HashSet` iterates in arbitrary order, so
the kill set is a list and the theorems hold for every order. -/

structure SceneState (α : Type) where
  entity_manager : EntityManager
  component_manager : ComponentManager α
  entities_to_kill : List Nat
deriving Repr, DecidableEq

/-- One iteration of the loop body of `SceneState::cull_entities`:
`remove_components(&entity)?` then `destroy_entity(entity)`. -/
def SceneState.cullStep {α : Type} (s : SceneState α) (e : Nat) :
    SceneState α :=
  { s with
    component_manager := s.component_manager.remove_components e
    entity_manager := s.entity_manager.destroy_entity e }

/-- `SceneState::cull_entities`: `self.entities_to_kill.take()` empties
the kill set, then the loop processes each taken entity. -/
def SceneState.cull_entities {α : Type} (s : SceneState α) : SceneState α :=
  s.entities_to_kill.foldl SceneState.cullStep
    { s with entities_to_kill := [] }

/-- `SceneState::destroy_entity`: marks an existing entity for
destruction, errors with `EntityDoesNotExist` otherwise. The `HashSet`
insert is modelled as a duplicate-free list insert. -/
def SceneState.destroy_entity {α : Type} (s : SceneState α) (e : Nat) :
    Except ErrorKind Unit × SceneState α :=
  if s.entity_manager.does_entity_exist e then
    (Except.ok (),
     { s with
       entities_to_kill :=
         if s.entities_to_kill.contains e then s.entities_to_kill
         else s.entities_to_kill ++ [e] })
  else (Except.error ErrorKind.EntityDoesNotExist, s)

/-! ## System scheduler (`src/ecs/system.rs`)

`Systems { system_list: Mutex<HashMap<TypeId, SystemData>>, system_parallels: Mutex<Vec<Vec<TypeId>>>, .. }`.
`SystemData` is the signature paired with the system instance; only the
signature matters to scheduling, so `system_list` maps a system's
`TypeId` to its signature. -/

structure Systems where
  system_list : List (Nat × List Nat)
  system_parallels : List (List Nat)
deriving Repr, DecidableEq

/-- `Systems::new` (the thread pool field carries no scheduling state). -/
def Systems.new : Systems := ⟨[], []⟩

/-- Signature lookup `system_list.get(system).unwrap().0` used inside
the batch check (the looked-up id is always present). -/
def sigOf (l : List (Nat × List Nat)) (sid : Nat) : List Nat :=
  (l.lookup sid).getD []

/-- The inner loop of `Systems::add_system` over one batch: for each
member, `components` is the MEMBER's own signature and the test is
`components.iter().any(|val| components.contains(val))` — the member's
signature checked against itself, exactly as the source writes it. -/
def batchAccepts (l : List (Nat × List Nat)) (batch : List Nat) : Bool :=
  batch.all (fun sid =>
    !((sigOf l sid).any (fun v => (sigOf l sid).contains v)))

/-- The outer loop of `Systems::add_system`: push the new id onto the
first batch that accepts it, else append a fresh singleton batch. -/
def placeInBatches (l : List (Nat × List Nat)) (sid : Nat) :
    List (List Nat) → List (List Nat)
  | [] => [[sid]]
  | b :: bs =>
    if batchAccepts l b then (b ++ [sid]) :: bs
    else b :: placeInBatches l sid bs

/-- `Systems::add_system`: no-op when the system's `TypeId` is already
registered; otherwise store `(signature, system)` and place the id into
the batches (the check reads `system_list` after the insert, as the
source does). -/
def Systems.add_system (s : Systems) (sid : Nat) (signature : List Nat) :
    Systems :=
  if mapContains s.system_list sid then s
  else
    let l := mapInsert s.system_list sid signature
    { system_list := l
      system_parallels := placeInBatches l sid s.system_parallels }

/-! ### Lifecycle traces

The lifecycle drivers emit, in program order, one `submit` per system
(the `t_pool.execute(..)` call) and one `wait` per `t_pool.wait()` call.
Per-system entity filtering runs before each submit and emits no
events. -/

inductive PassKind where
  | entry
  | scene_exit
  | frame
  | physics
deriving Repr, DecidableEq

inductive Event where
  | submit (pass : PassKind) (sid : Nat)
  | wait
deriving Repr, DecidableEq

/-- The submissions of one batch: `for system_id in parallel { .. execute(..) }`. -/
def batchSubmits (pass : PassKind) (batch : List Nat) : List Event :=
  batch.map (Event.submit pass)

/-- A pass with a `wait()` after each batch — the loop shape of
`on_entry`, `on_exit`, and the normal-frame part of `on_frame`. -/
def barrieredPass (pass : PassKind) (batches : List (List Nat)) :
    List Event :=
  (batches.map (fun b => batchSubmits pass b ++ [Event.wait])).flatten

/-- `Systems::on_entry`. -/
def Systems.on_entry_trace (s : Systems) : List Event :=
  barrieredPass PassKind.entry s.system_parallels

/-- `Systems::on_exit`. -/
def Systems.on_exit_trace (s : Systems) : List Event :=
  barrieredPass PassKind.scene_exit s.system_parallels

/-- The physics sub-pass of `Systems::on_frame`: both loops close before
the single `t_pool.borrow().wait()` on line 236, so every batch's jobs
are submitted and only then does one wait run. -/
def physicsPass (batches : List (List Nat)) : List Event :=
  (batches.map (batchSubmits PassKind.physics)).flatten ++ [Event.wait]

/-- `Systems::on_frame`: the physics sub-pass when `is_physics_frame`,
then the normal pass with a `wait()` after each batch. -/
def Systems.on_frame_trace (s : Systems) (is_physics_frame : Bool) :
    List Event :=
  (if is_physics_frame then physicsPass s.system_parallels else []) ++
    barrieredPass PassKind.frame s.system_parallels

/-! ## Worker pool (`src/thread_pool/mod.rs`)

Small-step interleaving machine for `ThreadPool`. Shared state: the
`VecDeque<Job>` (jobs are numbered), the `blocking` flags of the
`has_task` and `is_empty` `ThreadLock`s, and each worker's own
`ThreadLock` flag. A `ThreadLock::wait` loops while the flag is `true`
under its mutex, so a waiting thread's step is enabled once the flag is
`false`; stepping a thread whose condition still fails leaves the state
unchanged (the thread re-checks and keeps waiting). Each step below is
one lock-protected region of the source: in `JobQueue::get_job` the pop
and the flag updates that follow happen while the queue mutex guard is
held and form a single step, but the worker's own
`thread_lock.block()` call happens only AFTER `get_job` returns, as in
the worker loop of `ThreadPool::new`. -/

/-- A worker thread's position in the loop body of `ThreadPool::new`. -/
inductive WorkerPC where
  /-- inside `has_task.wait()` at the top of `JobQueue::get_job`. -/
  | waitTask
  /-- holding the queue mutex: pop and update flags, then return. -/
  | popJob
  /-- about to run `thread_lock_handle.block()`. -/
  | markBusy
  /-- about to run `if let Some(job) = job { job(); }`. -/
  | runJob
  /-- about to run `thread_lock_handle.unblock()`. -/
  | markIdle
deriving Repr, DecidableEq

/-- The main thread's position inside `ThreadPool::wait`. -/
inductive MainPC where
  /-- inside `job_queue.wait_for_clear()`, i.e. `is_empty.wait()`. -/
  | waitEmpty
  /-- in the `for (lock, _) in self.pool.iter()` loop, inside
  `lock.wait()` for worker `i`. -/
  | check (i : Nat)
  /-- `wait()` has returned. -/
  | finished
deriving Repr, DecidableEq

/-- One worker: its `ThreadLock` `blocking` flag, its loop position, and
the `job` local returned by `get_job`. -/
structure WorkerState where
  lockBlocking : Bool
  pc : WorkerPC
  job : Option Nat
deriving Repr, DecidableEq

structure PoolState where
  /-- `JobQueue.queue`, front at the head. -/
  queue : List Nat
  /-- the `blocking` flag of `JobQueue.has_task`. -/
  has_task : Bool
  /-- the `blocking` flag of `JobQueue.is_empty`. -/
  is_empty : Bool
  workers : List WorkerState
  mainpc : MainPC
  /-- jobs that have been executed (`job()` has run), in order. -/
  completed : List Nat
deriving Repr, DecidableEq

/-- `ThreadPool::new(thread_count)` followed by the workers parking:
`JobQueue::new` leaves `has_task` blocked and `is_empty` unblocked, and
every worker sits in `has_task.wait()` with its lock unblocked. -/
def PoolState.new (thread_count : Nat) : PoolState :=
  { queue := []
    has_task := true
    is_empty := false
    workers := List.replicate thread_count ⟨false, WorkerPC.waitTask, none⟩
    mainpc := MainPC.finished
    completed := [] }

/-- `ThreadPool::execute` / `JobQueue::assign_job`: push the job, block
`is_empty`, unblock `has_task`. -/
def PoolState.assign_job (s : PoolState) (j : Nat) : PoolState :=
  { s with queue := s.queue ++ [j], is_empty := true, has_task := false }

/-- The main thread enters `ThreadPool::wait`. -/
def PoolState.beginWait (s : PoolState) : PoolState :=
  { s with mainpc := MainPC.waitEmpty }

/-- One step of worker `i`. -/
def PoolState.stepWorker (s : PoolState) (i : Nat) : PoolState :=
  match s.workers.get? i with
  | none => s
  | some w =>
    match w.pc with
    | WorkerPC.waitTask =>
      -- `has_task.wait()`: proceeds only once the flag is false.
      if s.has_task then s
      else
        let w2 := { w with pc := WorkerPC.popJob }
        { s with workers := s.workers.set i w2 }
    | WorkerPC.popJob =>
      -- body of `JobQueue::get_job` under the queue mutex.
      match s.queue with
      | j :: rest =>
        -- pop succeeded: `self.has_task.unblock()`, return `Some(job)`.
        let w2 := { w with pc := WorkerPC.markBusy, job := some j }
        { s with queue := rest, has_task := false,
                 workers := s.workers.set i w2 }
      | [] =>
        -- queue empty: `self.is_empty.unblock(); self.has_task.block()`.
        let w2 := { w with pc := WorkerPC.markBusy, job := none }
        { s with is_empty := false, has_task := true,
                 workers := s.workers.set i w2 }
    | WorkerPC.markBusy =>
      -- `thread_lock_handle.block()`
      let w2 := { w with lockBlocking := true, pc := WorkerPC.runJob }
      { s with workers := s.workers.set i w2 }
    | WorkerPC.runJob =>
      -- `if let Some(job) = job { job(); }`
      match w.job with
      | some j =>
        let w2 := { w with pc := WorkerPC.markIdle, job := none }
        { s with completed := s.completed ++ [j],
                 workers := s.workers.set i w2 }
      | none =>
        let w2 := { w with pc := WorkerPC.markIdle }
        { s with workers := s.workers.set i w2 }
    | WorkerPC.markIdle =>
      -- `thread_lock_handle.unblock()`, then loop.
      let w2 := { w with lockBlocking := false, pc := WorkerPC.waitTask }
      { s with workers := s.workers.set i w2 }

/-- One step of the main thread inside `ThreadPool::wait`. -/
def PoolState.stepMain (s : PoolState) : PoolState :=
  match s.mainpc with
  | MainPC.waitEmpty =>
    -- `is_empty.wait()`: proceeds only once the flag is false.
    if s.is_empty then s else { s with mainpc := MainPC.check 0 }
  | MainPC.check i =>
    match s.workers.get? i with
    | none => { s with mainpc := MainPC.finished }
    | some w =>
      -- `lock.wait()`: proceeds only once the worker's flag is false.
      if w.lockBlocking then s else { s with mainpc := MainPC.check (i + 1) }
  | MainPC.finished => s

/-- A schedule entry: which thread takes the next step. -/
inductive Tid where
  | main
  | worker (i : Nat)
deriving Repr, DecidableEq

def PoolState.step (s : PoolState) : Tid → PoolState
  | Tid.main => s.stepMain
  | Tid.worker i => s.stepWorker i

/-- Run a schedule (a concrete thread interleaving). -/
def PoolState.run (s : PoolState) (sched : List Tid) : PoolState :=
  sched.foldl PoolState.step s

/-! ## Concrete fixtures and derived predicates -/

/-- `has_entity_data` reached through the store: the type key's array
exists and holds the entity (used to state when `get_component`
succeeds). -/
def ComponentManager.entity_owns {α : Type} (cm : ComponentManager α)
    (k e : Nat) : Bool :=
  match cm.components.lookup k with
  | some arr => mapContains arr e
  | none => false

/-- The registration sequence of spec scenario 3: system `0` requires
component `10` (Position), system `1` requires component `11`
(Velocity) — two disjoint signatures. -/
def sampleSystems : Systems :=
  (Systems.new.add_system 0 [10]).add_system 1 [11]

/-- A two-worker pool, one submitted job (number `0`), main thread
entering `wait()`: `ThreadPool::new(2)` then `execute(job0)` then
`wait()` begins. -/
def racyInit : PoolState := ((PoolState.new 2).assign_job 0).beginWait

/-- A legal interleaving: worker 0 passes `has_task.wait()` and pops the
job (then is preempted BEFORE running `thread_lock.block()`); worker 1
passes the wait, finds the queue empty and unblocks `is_empty`; the main
thread then runs `wait()` to completion. Every step taken is enabled
when taken. -/
def racySchedule : List Tid :=
  [Tid.worker 0, Tid.worker 0, Tid.worker 1, Tid.worker 1,
   Tid.main, Tid.main, Tid.main, Tid.main]

/-! ## Helper lemmas on association lists -/

theorem lookup_eq_none_of_not_contains {β : Type} {l : List (Nat × β)} {k : Nat}
    (h : mapContains l k = false) : l.lookup k = none := by
  induction l with
  | nil => rfl
  | cons p t ih =>
    rcases p with ⟨k1, v1⟩
    simp only [mapContains, List.any_cons, Bool.or_eq_false_iff,
      decide_eq_false_iff_not] at h
    have hb : (k == k1) = false :=
      beq_eq_false_iff_ne.mpr (fun he => h.1 he.symm)
    simp only [List.lookup, hb]
    exact ih h.2

theorem lookup_isSome_of_contains {β : Type} {l : List (Nat × β)} {k : Nat}
    (h : mapContains l k = true) : ∃ v, l.lookup k = some v := by
  induction l with
  | nil => simp [mapContains] at h
  | cons p t ih =>
    rcases p with ⟨k1, v1⟩
    simp only [mapContains, List.any_cons, Bool.or_eq_true,
      decide_eq_true_eq] at h
    by_cases he : k = k1
    · exact ⟨v1, by simp [List.lookup, he]⟩
    · have hb : (k == k1) = false := beq_eq_false_iff_ne.mpr he
      rcases h with h | h
      · exact absurd h.symm he
      · rcases ih h with ⟨v, hv⟩
        exact ⟨v, by simp only [List.lookup, hb]; exact hv⟩

theorem contains_of_lookup_isSome {β : Type} {l : List (Nat × β)} {k : Nat}
    {v : β} (h : l.lookup k = some v) : mapContains l k = true := by
  by_contra hc
  rw [lookup_eq_none_of_not_contains (Bool.eq_false_iff.mpr hc)] at h
  exact Option.noConfusion h

theorem mem_of_lookup_some {β : Type} {l : List (Nat × β)} {k : Nat} {v : β}
    (h : l.lookup k = some v) : (k, v) ∈ l := by
  induction l with
  | nil => exact Option.noConfusion h
  | cons p t ih =>
    rcases p with ⟨k1, v1⟩
    by_cases he : k = k1
    · subst he
      simp [List.lookup] at h
      subst h
      exact List.mem_cons_self _ _
    · have hb : (k == k1) = false := beq_eq_false_iff_ne.mpr he
      simp only [List.lookup, hb] at h
      exact List.mem_cons_of_mem _ (ih h)

/-! ## C4: entity id reuse is FIFO and exhaustion errors -/

/-- C4. `create_entity` reuses a freed id whenever any exist, taking the
FRONT of the freed deque (ids freed earliest are reissued first, since
`destroy_entity` pushes onto the BACK); with no freed ids and the
counter at `u32::MAX` it fails with `EntityMaxReached`; and
`destroy_entity` of an existing entity appends its id to the back of the
freed deque without touching the counter. -/
theorem create_entity_fifo_reuse_spec (m : EntityManager) :
    (∀ e rest, m.dead_entities = e :: rest →
      m.create_entity = (Except.ok e, { m with dead_entities := rest })) ∧
    (m.dead_entities = [] → m.next_entity_id = u32MAX →
      m.create_entity = (Except.error ErrorKind.EntityMaxReached, m)) ∧
    (m.dead_entities = [] → m.next_entity_id ≠ u32MAX →
      m.create_entity = (Except.ok m.next_entity_id,
        { m with next_entity_id := m.next_entity_id + 1 })) ∧
    (∀ e, m.does_entity_exist e = true →
      (m.destroy_entity e).dead_entities = m.dead_entities ++ [e] ∧
      (m.destroy_entity e).next_entity_id = m.next_entity_id) := by
  refine ⟨?_, ?_, ?_, ?_⟩
  · intro e rest h
    simp [EntityManager.create_entity, h]
  · intro h hmax
    simp [EntityManager.create_entity, h, hmax]
  · intro h hmax
    simp [EntityManager.create_entity, h, hmax]
  · intro e h
    simp [EntityManager.destroy_entity, h]

/-- Witness for C4 at concrete registries: freed ids `[2, 3]` → `2` (the
first freed) is reissued and `3` stays queued; destroying live entity
`4` appends it behind `3`; a full id space with nothing freed errors. -/
theorem create_entity_fifo_reuse_spec_witness :
    (EntityManager.mk 5 [2, 3]).create_entity =
      (Except.ok 2, EntityManager.mk 5 [3]) ∧
    ((EntityManager.mk 5 [2, 3]).destroy_entity 4).dead_entities = [2, 3, 4] ∧
    (EntityManager.mk u32MAX []).create_entity =
      (Except.error ErrorKind.EntityMaxReached, EntityManager.mk u32MAX []) :=
  ⟨(create_entity_fifo_reuse_spec (EntityManager.mk 5 [2, 3])).1 2 [3] rfl,
   ((create_entity_fifo_reuse_spec (EntityManager.mk 5 [2, 3])).2.2.2 4
      (by decide)).1,
   (create_entity_fifo_reuse_spec (EntityManager.mk u32MAX [])).2.1 rfl rfl⟩

/-! ## C10: the liveness predicate -/

/-- C10. `does_entity_exist` is true exactly when the id is below the
allocation counter and absent from the freed-id deque;
`get_living_entities` returns exactly the ids satisfying that predicate;
and `has_components` with an empty key list is `Ok(true)` for every id,
created or not. -/
theorem entity_liveness_spec {α : Type} (m : EntityManager) (e : Nat)
    (cm : ComponentManager α) :
    (m.does_entity_exist e = true ↔
      e < m.next_entity_id ∧ e ∉ m.dead_entities) ∧
    (e ∈ m.get_living_entities ↔
      e < m.next_entity_id ∧ e ∉ m.dead_entities) ∧
    cm.has_components e [] = Except.ok true := by
  refine ⟨?_, ?_, rfl⟩
  · simp [EntityManager.does_entity_exist]
  · simp [EntityManager.get_living_entities, List.mem_filter, List.mem_range]

/-! ## C7: unregistered component types always error -/

/-- C7. On an unregistered component type key, `has_components` (queried
for that key) and `add_component` both fail with
`ComponentNotRegistered`, and `add_component` leaves the store
untouched. -/
theorem unregistered_component_errors {α : Type} (cm : ComponentManager α)
    (k e : Nat) (v : α) (h : cm.is_component_registered k = false) :
    cm.has_components e [k] = Except.error ErrorKind.ComponentNotRegistered ∧
    cm.add_component k e v =
      (Except.error ErrorKind.ComponentNotRegistered, cm) := by
  have hl : cm.components.lookup k = none :=
    lookup_eq_none_of_not_contains h
  exact ⟨by simp [ComponentManager.has_components, hl],
         by simp [ComponentManager.add_component, hl]⟩

/-- Witness for C7 on the empty store with key `0`. -/
theorem unregistered_component_errors_witness :
    (ComponentManager.new : ComponentManager Nat).has_components 0 [0] =
      Except.error ErrorKind.ComponentNotRegistered ∧
    (ComponentManager.new : ComponentManager Nat).add_component 0 0 7 =
      (Except.error ErrorKind.ComponentNotRegistered, ComponentManager.new) :=
  unregistered_component_errors ComponentManager.new 0 0 7 rfl

/-! ## C8: the `get_component` error taxonomy -/

/-- C8. `get_component` fails with `ComponentNotRegistered` when the
type key has no backing array, fails with `EntityDoesNotOwnComponent`
when the array exists but lacks the entity, and returns a view (the
stored value) exactly when the type is registered and the entity owns
the component. -/
theorem get_component_error_taxonomy {α : Type} (cm : ComponentManager α)
    (k e : Nat) :
    (cm.is_component_registered k = false →
      cm.get_component k e = Except.error ErrorKind.ComponentNotRegistered) ∧
    (cm.is_component_registered k = true → cm.entity_owns k e = false →
      cm.get_component k e =
        Except.error ErrorKind.EntityDoesNotOwnComponent) ∧
    ((∃ v, cm.get_component k e = Except.ok v) ↔
      cm.is_component_registered k = true ∧ cm.entity_owns k e = true) := by
  refine ⟨?_, ?_, ?_⟩
  · intro h
    simp [ComponentManager.get_component,
      lookup_eq_none_of_not_contains (l := cm.components) h]
  · intro hreg hown
    rcases lookup_isSome_of_contains (l := cm.components) hreg with ⟨arr, harr⟩
    simp only [ComponentManager.entity_owns, harr] at hown
    simp [ComponentManager.get_component, harr,
      lookup_eq_none_of_not_contains (l := arr) hown]
  · constructor
    · rintro ⟨v, hv⟩
      cases harr : cm.components.lookup k with
      | none => simp [ComponentManager.get_component, harr] at hv
      | some arr =>
        cases hev : arr.lookup e with
        | none => simp [ComponentManager.get_component, harr, hev] at hv
        | some w =>
          exact ⟨contains_of_lookup_isSome harr,
            by simp [ComponentManager.entity_owns, harr,
              contains_of_lookup_isSome hev]⟩
    · rintro ⟨hreg, hown⟩
      rcases lookup_isSome_of_contains (l := cm.components) hreg with ⟨arr, harr⟩
      simp only [ComponentManager.entity_owns, harr] at hown
      rcases lookup_isSome_of_contains (l := arr) hown with ⟨v, hv⟩
      exact ⟨v, by simp [ComponentManager.get_component, harr, hv]⟩

/-- Witness for C8 on a store where type `1` holds value `42` for entity
`7`: success on `(1, 7)`, `EntityDoesNotOwnComponent` on `(1, 8)`,
`ComponentNotRegistered` on type `2`. -/
theorem get_component_error_taxonomy_witness :
    ((ComponentManager.mk [(1, [(7, 42)])] : ComponentManager Nat)).get_component
        2 7 = Except.error ErrorKind.ComponentNotRegistered ∧
    ((ComponentManager.mk [(1, [(7, 42)])] : ComponentManager Nat)).get_component
        1 8 = Except.error ErrorKind.EntityDoesNotOwnComponent ∧
    (∃ v, ((ComponentManager.mk [(1, [(7, 42)])] :
      ComponentManager Nat)).get_component 1 7 = Except.ok v) :=
  ⟨(get_component_error_taxonomy (ComponentManager.mk [(1, [(7, 42)])]) 2 7).1
      (by decide),
   (get_component_error_taxonomy (ComponentManager.mk [(1, [(7, 42)])]) 1 8).2.1
      (by decide) (by decide),
   (get_component_error_taxonomy (ComponentManager.mk [(1, [(7, 42)])]) 1 7).2.2.mpr
      ⟨by decide, by decide⟩⟩

/-! ## C9: `register_component` is idempotent -/

/-- C9. Registering the same component type twice returns the same key
both times, the second call leaves the store untouched, and afterwards
exactly one backing array exists for that key (the hypothesis says the
store does not already hold duplicate arrays for the key, which no
sequence of store operations can produce). -/
theorem register_component_idempotent {α : Type} (cm : ComponentManager α)
    (k : Nat) (h : cm.components.countP (fun p => p.1 = k) ≤ 1) :
    (cm.register_component k).1 = k ∧
    ((cm.register_component k).2.register_component k).1 = k ∧
    ((cm.register_component k).2.register_component k).2 =
      (cm.register_component k).2 ∧
    (cm.register_component k).2.components.countP (fun p => p.1 = k) = 1 := by
  by_cases hreg : cm.is_component_registered k = true
  · have h1 : 0 < cm.components.countP (fun p => p.1 = k) := by
      simp only [ComponentManager.is_component_registered, mapContains,
        List.any_eq_true] at hreg
      exact List.countP_pos_iff.mpr hreg
    have hid : cm.register_component k = (k, cm) := by
      simp [ComponentManager.register_component, hreg]
    rw [hid]
    exact ⟨rfl, by rw [hid], by rw [hid], le_antisymm h h1⟩
  · have hreg' : cm.is_component_registered k = false :=
      Bool.eq_false_iff.mpr hreg
    have hstep : cm.register_component k =
        (k, ComponentManager.mk (mapInsert cm.components k [])) := by
      simp [ComponentManager.register_component, hreg']
    have hreg2 : (ComponentManager.mk (mapInsert cm.components k
        ([] : List (Nat × α)))).is_component_registered k = true := by
      simp [ComponentManager.is_component_registered, mapContains, mapInsert]
    have hz : (cm.components.filter
        (fun p => p.1 ≠ k)).countP (fun p => p.1 = k) = 0 := by
      rw [List.countP_eq_zero]
      intro p hp
      simp only [List.mem_filter, decide_eq_true_eq] at hp
      simp [hp.2]
    rw [hstep]
    refine ⟨rfl, by simp [ComponentManager.register_component, hreg2],
      by simp [ComponentManager.register_component, hreg2], ?_⟩
    simp [mapInsert, List.countP_cons, hz]

/-- Witness for C9 on the empty store with key `3`. -/
theorem register_component_idempotent_witness :
    ((ComponentManager.new : ComponentManager Nat).register_component 3).1 = 3 ∧
    (((ComponentManager.new : ComponentManager Nat).register_component
        3).2.register_component 3).2 =
      ((ComponentManager.new : ComponentManager Nat).register_component 3).2 ∧
    ((ComponentManager.new : ComponentManager Nat).register_component
        3).2.components.countP (fun p => p.1 = 3) = 1 := by
  have h := register_component_idempotent
    (ComponentManager.new : ComponentManager Nat) 3 (by decide)
  exact ⟨h.1, h.2.2.1, h.2.2.2⟩

/-! ## C1: the batch overlap check

`Systems::add_system` tests, for each member of a candidate batch,
`components.iter().any(|val| components.contains(val))` where
`components` is the MEMBER's own signature — a signature compared with
itself. Any member with a non-empty signature therefore rejects every
newcomer, so two systems with disjoint non-empty signatures are never
co-batched, contradicting the claim (spec scenario 3 expects systems
`0` and `1` below in ONE batch). -/

/-- C1 fails on the code: registering system `0` with signature `{10}`
and then system `1` with the disjoint signature `{11}` yields TWO
singleton batches, where the claim requires one batch holding both.
(The batch `[0]` rejects `1` because member `0`'s signature `[10]`
overlaps itself.) -/
theorem add_system_disjoint_signatures_split :
    sampleSystems.system_parallels = [[0], [1]] := by decide

/-! ## C2: inter-batch barriers

`on_entry`, `on_exit` and the normal pass of `on_frame` call
`t_pool.wait()` inside the loop over batches, but the physics sub-pass
of `on_frame` (src/ecs/system.rs lines 202-237) closes BOTH loops
before its single `wait()`: every batch's jobs are submitted and only
then does one wait run, so no barrier separates consecutive batches
there. -/

/-- C2 fails on the code: with the two batches `[[0], [1]]` of
`sampleSystems`, the physics sub-pass trace submits batch `[1]`'s job
immediately after batch `[0]`'s with NO intervening `wait`, while the
claim requires the scheduler to block until the pool drains between the
two. (The normal pass that follows does wait after each batch.) -/
theorem on_frame_physics_pass_lacks_batch_barrier :
    sampleSystems.on_frame_trace true =
      [Event.submit PassKind.physics 0, Event.submit PassKind.physics 1,
       Event.wait,
       Event.submit PassKind.frame 0, Event.wait,
       Event.submit PassKind.frame 1, Event.wait] := by decide

/-! ## C6: `ThreadPool::wait` can return before a popped job runs

A worker marks itself busy (`thread_lock.block()`) only AFTER
`get_job` returns the popped job. Between the pop and the block the
job is invisible both to `is_empty` (the queue is already empty) and to
the worker's own lock (still unblocked), so `wait()` can observe
"queue drained, all workers idle" and return while the job has not
started — even though every submission finished before `wait()` was
called. This contradicts `wait`'s own doc comment ("blocks the current
thread until all the currently queued jobs are finished"). -/

/-- C6 fails on the code: under the legal interleaving `racySchedule`
(two workers, one job submitted, then `wait()`), `wait()` runs to
completion (`mainpc = finished`) while NO job has executed
(`completed = []`) — worker 0 still holds job `0` un-run, about to mark
itself busy. The claim requires every submitted job to have completed
before `wait()` returns. -/
theorem wait_returns_before_popped_job_runs :
    (racyInit.run racySchedule).mainpc = MainPC.finished ∧
    (racyInit.run racySchedule).completed = [] ∧
    (racyInit.run racySchedule).workers.get? 0 =
      some ⟨false, WorkerPC.markBusy, some 0⟩ := by decide

/-! ## C3: the physics sub-pass runs before the frame pass, and only
when the flag is set -/

/-- C3. When `on_frame` is called with the physics-tick flag set, the
trace is: the physics submissions of every system of every batch, then a
pool drain (`wait`), then the normal-frame pass — so every physics job
has completed before any per-frame job is submitted. The physics block
contains every registered system's physics submission and nothing else,
and the frame pass contains no physics submission. With the flag false
the trace is exactly the frame pass: no physics callback runs. -/
theorem on_frame_physics_pass_precedes_frame_pass (s : Systems) :
    s.on_frame_trace true =
      (s.system_parallels.map (batchSubmits PassKind.physics)).flatten
        ++ Event.wait :: barrieredPass PassKind.frame s.system_parallels ∧
    (∀ b ∈ s.system_parallels, ∀ sid ∈ b,
      Event.submit PassKind.physics sid ∈
        (s.system_parallels.map (batchSubmits PassKind.physics)).flatten) ∧
    (∀ ev ∈ (s.system_parallels.map (batchSubmits PassKind.physics)).flatten,
      ∃ sid, ev = Event.submit PassKind.physics sid) ∧
    (∀ sid, Event.submit PassKind.physics sid ∉
      barrieredPass PassKind.frame s.system_parallels) ∧
    s.on_frame_trace false = barrieredPass PassKind.frame s.system_parallels := by
  refine ⟨?_, ?_, ?_, ?_, ?_⟩
  · simp [Systems.on_frame_trace, physicsPass, List.append_assoc]
  · intro b hb sid hsid
    refine List.mem_flatten.mpr
      ⟨batchSubmits PassKind.physics b, List.mem_map_of_mem _ hb, ?_⟩
    simp only [batchSubmits]
    exact List.mem_map_of_mem _ hsid
  · intro ev hev
    rcases List.mem_flatten.mp hev with ⟨l, hl, hevl⟩
    rcases List.mem_map.mp hl with ⟨b, _, rfl⟩
    simp only [batchSubmits] at hevl
    rcases List.mem_map.mp hevl with ⟨sid, _, rfl⟩
    exact ⟨sid, rfl⟩
  · intro sid hmem
    simp only [barrieredPass] at hmem
    rcases List.mem_flatten.mp hmem with ⟨l, hl, hevl⟩
    rcases List.mem_map.mp hl with ⟨b, _, rfl⟩
    simp only [batchSubmits] at hevl
    rcases List.mem_append.mp hevl with hin | hin
    · rcases List.mem_map.mp hin with ⟨sid2, _, heq⟩
      simp at heq
    · simp at hin
  · simp [Systems.on_frame_trace]

/-- Witness for C3 on `sampleSystems`: system `1`'s physics submission
occurs in the physics block and never in the frame pass. -/
theorem on_frame_physics_pass_precedes_frame_pass_witness :
    Event.submit PassKind.physics 1 ∈
      (sampleSystems.system_parallels.map
        (batchSubmits PassKind.physics)).flatten ∧
    Event.submit PassKind.physics 1 ∉
      barrieredPass PassKind.frame sampleSystems.system_parallels :=
  ⟨(on_frame_physics_pass_precedes_frame_pass sampleSystems).2.1 [1]
      (by decide) 1 (by decide),
   (on_frame_physics_pass_precedes_frame_pass sampleSystems).2.2.2.1 1⟩

/-! ## C5: the end-of-tick cull

Supporting lemmas: the cull fold acts componentwise on the entity and
component managers; destroyed ids stay in the freed deque; removal
clears an entity from every array and later removals keep it absent. -/

theorem cull_fold_entity_manager {α : Type} (l : List Nat) (s : SceneState α) :
    (l.foldl SceneState.cullStep s).entity_manager =
      l.foldl EntityManager.destroy_entity s.entity_manager := by
  induction l generalizing s with
  | nil => rfl
  | cons x xs ih => simpa using ih (SceneState.cullStep s x)

theorem cull_fold_component_manager {α : Type} (l : List Nat)
    (s : SceneState α) :
    (l.foldl SceneState.cullStep s).component_manager =
      l.foldl ComponentManager.remove_components s.component_manager := by
  induction l generalizing s with
  | nil => rfl
  | cons x xs ih => simpa using ih (SceneState.cullStep s x)

theorem destroy_entity_next {m : EntityManager} {x : Nat} :
    (m.destroy_entity x).next_entity_id = m.next_entity_id := by
  unfold EntityManager.destroy_entity
  split <;> rfl

theorem destroy_entity_dead_mono {m : EntityManager} {x e : Nat}
    (h : e ∈ m.dead_entities) : e ∈ (m.destroy_entity x).dead_entities := by
  unfold EntityManager.destroy_entity
  split
  · exact List.mem_append_left _ h
  · exact h

theorem foldl_destroy_dead_mono {l : List Nat} {m : EntityManager} {e : Nat}
    (h : e ∈ m.dead_entities) :
    e ∈ (l.foldl EntityManager.destroy_entity m).dead_entities := by
  induction l generalizing m with
  | nil => exact h
  | cons x xs ih => exact ih (destroy_entity_dead_mono h)

theorem foldl_destroy_mem_dead {l : List Nat} {m : EntityManager} {e : Nat}
    (hmem : e ∈ l) (hlt : e < m.next_entity_id) :
    e ∈ (l.foldl EntityManager.destroy_entity m).dead_entities := by
  induction l generalizing m with
  | nil => cases hmem
  | cons x xs ih =>
    rcases List.mem_cons.mp hmem with rfl | hmem'
    · have hstep : e ∈ (m.destroy_entity e).dead_entities := by
        unfold EntityManager.destroy_entity
        split
        · exact List.mem_append_right _ (by simp)
        · rename_i hne
          simp [EntityManager.does_entity_exist, hlt] at hne
          exact hne
      rw [List.foldl_cons]
      exact foldl_destroy_dead_mono hstep
    · exact ih hmem' (by rwa [destroy_entity_next])

theorem mem_dead_not_living {m : EntityManager} {e : Nat}
    (h : e ∈ m.dead_entities) : e ∉ m.get_living_entities := by
  simp [EntityManager.get_living_entities, List.mem_filter, h]

theorem remove_components_no_entity {α : Type} (cm : ComponentManager α)
    (e : Nat) :
    ∀ p ∈ (cm.remove_components e).components, mapContains p.2 e = false := by
  intro p hp
  simp only [ComponentManager.remove_components, List.mem_map] at hp
  rcases hp with ⟨q, _, rfl⟩
  simp only [mapContains, List.any_eq_false, decide_eq_true_eq]
  intro a ha
  simp only [List.mem_filter, decide_eq_true_eq] at ha
  exact ha.2

theorem remove_components_preserves_no_entity {α : Type}
    {cm : ComponentManager α} {e : Nat} (x : Nat)
    (h : ∀ p ∈ cm.components, mapContains p.2 e = false) :
    ∀ p ∈ (cm.remove_components x).components, mapContains p.2 e = false := by
  intro p hp
  simp only [ComponentManager.remove_components, List.mem_map] at hp
  rcases hp with ⟨q, hq, rfl⟩
  have hqe := h q hq
  simp only [mapContains, List.any_eq_false, decide_eq_true_eq] at hqe ⊢
  intro a ha
  exact hqe a (List.mem_of_mem_filter ha)

theorem foldl_remove_components_preserves {α : Type} {l : List Nat}
    {cm : ComponentManager α} {e : Nat}
    (h : ∀ p ∈ cm.components, mapContains p.2 e = false) :
    ∀ p ∈ (l.foldl ComponentManager.remove_components cm).components,
      mapContains p.2 e = false := by
  induction l generalizing cm with
  | nil => exact h
  | cons x xs ih => exact ih (remove_components_preserves_no_entity x h)

theorem foldl_remove_components_no_entity {α : Type} {l : List Nat}
    {cm : ComponentManager α} {e : Nat} (hmem : e ∈ l) :
    ∀ p ∈ (l.foldl ComponentManager.remove_components cm).components,
      mapContains p.2 e = false := by
  induction l generalizing cm with
  | nil => cases hmem
  | cons x xs ih =>
    rcases List.mem_cons.mp hmem with rfl | hmem'
    · rw [List.foldl_cons]
      exact foldl_remove_components_preserves
        (remove_components_no_entity cm e)
    · exact ih hmem'

theorem remove_components_preserves_registered {α : Type}
    (cm : ComponentManager α) (x k : Nat) :
    (cm.remove_components x).is_component_registered k =
      cm.is_component_registered k := by
  simp only [ComponentManager.remove_components,
    ComponentManager.is_component_registered, mapContains, List.any_map]
  rfl

theorem foldl_remove_components_preserves_registered {α : Type}
    (l : List Nat) (cm : ComponentManager α) (k : Nat) :
    (l.foldl ComponentManager.remove_components
      cm).is_component_registered k = cm.is_component_registered k := by
  induction l generalizing cm with
  | nil => rfl
  | cons x xs ih =>
    rw [List.foldl_cons, ih, remove_components_preserves_registered]

/-- C5. If an entity is marked for destruction (hence, since
`SceneState::destroy_entity` only marks ids that exist, its id is below
the allocation counter) then after `cull_entities` runs the id is absent
from `get_living_entities`, and `has_components` answers `Ok(false)` for
every non-empty key set whose first key is registered: the entity
remains in no registered array. -/
theorem cull_entities_destroys_marked_entity {α : Type} (s : SceneState α)
    (e k : Nat) (keys : List Nat)
    (hmem : e ∈ s.entities_to_kill)
    (hlt : e < s.entity_manager.next_entity_id)
    (hreg : s.component_manager.is_component_registered k = true) :
    e ∉ (s.cull_entities).entity_manager.get_living_entities ∧
    (s.cull_entities).component_manager.has_components e (k :: keys) =
      Except.ok false := by
  constructor
  · apply mem_dead_not_living
    rw [SceneState.cull_entities, cull_fold_entity_manager]
    exact foldl_destroy_mem_dead hmem hlt
  · have hcm : (s.cull_entities).component_manager =
        s.entities_to_kill.foldl ComponentManager.remove_components
          s.component_manager := by
      rw [SceneState.cull_entities, cull_fold_component_manager]
    have hregf :
        (s.cull_entities).component_manager.is_component_registered k = true := by
      rw [hcm, foldl_remove_components_preserves_registered]
      exact hreg
    rcases lookup_isSome_of_contains hregf with ⟨arr, harr⟩
    have hno : mapContains arr e = false := by
      have hmem2 := mem_of_lookup_some harr
      rw [hcm] at hmem2
      exact foldl_remove_components_no_entity hmem (k, arr) hmem2
    simp [ComponentManager.has_components, harr, hno]

/-- Witness for C5: a scene with entities `0` and `1`, component type
`5` owned by both, entity `0` marked for destruction; after the cull,
`0` is not living and owns no component of type `5`. -/
theorem cull_entities_destroys_marked_entity_witness :
    (0 : Nat) ∉ ((SceneState.mk (EntityManager.mk 2 [])
        (ComponentManager.mk [(5, [(0, (42 : Nat)), (1, 7)])])
        [0]).cull_entities).entity_manager.get_living_entities ∧
    ((SceneState.mk (EntityManager.mk 2 [])
        (ComponentManager.mk [(5, [(0, (42 : Nat)), (1, 7)])])
        [0]).cull_entities).component_manager.has_components 0 [5] =
      Except.ok false :=
  cull_entities_destroys_marked_entity
    (SceneState.mk (EntityManager.mk 2 [])
      (ComponentManager.mk [(5, [(0, 42), (1, 7)])]) [0])
    0 5 [] (by decide) (by decide) (by decide)

end RustEngine
